import Mathlib

set_option maxRecDepth 40000

/-!
Shallow embedding of the PriceDragon ETL pipeline (src/etl/pipeline.py,
src/etl/schemas.py, src/etl/load.py, src/database/models.py) and proofs
about it.

Modelling conventions:
* Python floats are modelled by `ℚ` (all prices and scores in the claims
  are produced by exact small-denominator arithmetic).
* Timestamps (`datetime.now(...)`) are modelled by an abstract `Nat`
  parameter `now` threaded through the functions.
* Raw scraper dicts are modelled by a typed record `RawProduct`; a key
  that may be absent is an `Option` field, matching `dict.get` defaults.
* SQLAlchemy sessions are created with `autoflush=False`
  (src/database/connection.py), so during one pipeline run a query sees
  the committed rows plus the explicitly flushed ones; pending
  `db.add(...)` calls that were never flushed are invisible to queries.
  The embedding therefore threads the *visible* store separately from
  the pending inserts where the source relies on this (the matcher).
-/

/-! ## Generic string helpers (Python `str` / `re` behaviour) -/

/-- Python `\s` on the data in this pipeline (ASCII whitespace). -/
def isSpaceChar (c : Char) : Bool := c.isWhitespace

/-- CJK unified ideographs range `一-鿿` used by the cleaning regex. -/
def isCJK (c : Char) : Bool := 0x4e00 ≤ c.toNat ∧ c.toNat ≤ 0x9fff

/-- Python `\w` (word character) restricted to the scripts this repo
processes: ASCII alphanumerics, underscore and CJK ideographs. -/
def isWordChar (c : Char) : Bool := c.isAlphanum ∨ c = '_' ∨ isCJK c

/-- Collapse every run of whitespace to a single space:
`re.sub(r'\s+', ' ', s)`.  The Bool argument records whether the
previous character was whitespace. -/
def collapseWsAux : List Char → Bool → List Char
  | [], _ => []
  | c :: rest, prev =>
    if isSpaceChar c then
      if prev then collapseWsAux rest true else ' ' :: collapseWsAux rest true
    else c :: collapseWsAux rest false

def collapseWs (cs : List Char) : List Char := collapseWsAux cs false

/-- Python `str.strip()`: drop whitespace from both ends. -/
def pyStrip (cs : List Char) : List Char :=
  ((cs.dropWhile isSpaceChar).reverse.dropWhile isSpaceChar).reverse

/-- `ProductETL._clean_text`: collapse whitespace, strip, keep only the
allow-listed characters (`[\w\s一-鿿\-\(\)\[\]\/]`), truncate to
500 characters.  Empty input yields empty output. -/
def cleanText (s : String) : String :=
  if s = "" then "" else
  let cs := pyStrip (collapseWs s.data)
  let cs := cs.filter (fun c =>
    isWordChar c ∨ isSpaceChar c ∨ c = '-' ∨ c = '(' ∨ c = ')' ∨ c = '[' ∨ c = ']' ∨ c = '/')
  String.mk (cs.take 500)

/-- Noise tokens removed by `_normalize_name`, in source order. -/
def noiseWords : List String :=
  ["的", "【", "】", "(", ")", "[", "]", "限時", "特價", "優惠"]

/-- `ProductETL._normalize_name`: lowercase, replace each noise token by a
space, collapse whitespace, strip. -/
def normalizeName (name : String) : String :=
  let s := name.toLower
  let s := noiseWords.foldl (fun acc w => acc.replace w " ") s
  String.mk (pyStrip (collapseWs s.data))

/-- Python substring test `p in s`. -/
def isSubstr (p s : String) : Bool := decide (p.data <:+: s.data)

/-- Python `str.title()` for the simple (ASCII) brand tokens it is applied
to: the first letter of each alphabetic run is uppercased, the rest
lowercased. -/
def pyTitleAux : List Char → Bool → List Char
  | [], _ => []
  | c :: rest, prevAlpha =>
    if c.isAlpha then
      (if prevAlpha then c.toLower else c.toUpper) :: pyTitleAux rest true
    else c :: pyTitleAux rest false

def pyTitle (s : String) : String := String.mk (pyTitleAux s.data false)

/-! ## Data model (src/database/models.py) -/

structure Platform where
  id : Nat
  name : String
deriving DecidableEq, Repr

structure Category where
  id : Nat
  name : String
deriving DecidableEq, Repr

/-- `Product` rows of the unified catalog.  `scrape_count` is `Option`
because the column is nullable and the source defends against `None`
(`existing.scrape_count or 0`); rows created by this pipeline get the
column default `1` at flush time. -/
structure Product where
  id : Nat
  name : String
  normalized_name : String
  description : String := ""
  brand : String := ""
  model : String := ""
  platform_id : Nat
  platform_product_id : String
  url : String := ""
  image_url : String := ""
  category_id : Option Nat := none
  current_price : ℚ := 0
  original_price : ℚ := 0
  discount_percentage : ℚ := 0
  is_available : Bool := true
  data_quality_score : ℚ := 1
  last_scraped : Nat := 0
  scrape_count : Option Nat := none
  created_at : Nat := 0
deriving DecidableEq, Repr

structure PriceHistoryRecord where
  product_id : Nat
  platform_id : Nat
  price : ℚ
  original_price : ℚ
  discount_percentage : ℚ
  availability : Bool
  scraped_at : Nat
  scrape_session_id : String
deriving DecidableEq, Repr

structure ProductMatch where
  product_a_id : Nat
  product_b_id : Nat
  similarity_score : ℚ
  match_type : String
  match_algorithm : String
  is_verified : Bool := false
  is_active : Bool := true
deriving DecidableEq, Repr

structure ScrapeSession where
  session_id : String
  query : String
  platforms_scraped : List String
  products_found : Nat := 0
  success_rate : ℚ := 0
  started_at : Option Nat := none
  completed_at : Option Nat := none
  status : String := "running"
  error_message : Option String := none
deriving DecidableEq, Repr

/-- The catalog store: the four entity tables plus the platform/category
lookup tables and the id sequence for newly inserted products. -/
structure DB where
  platforms : List Platform := []
  categories : List Category := []
  products : List Product := []
  history : List PriceHistoryRecord := []
  product_matches : List ProductMatch := []
  sessions : List ScrapeSession := []
  nextProductId : Nat := 1
deriving DecidableEq, Repr

/-- A raw scraper record (one Python dict).  `Option` fields model keys
that may be absent, matching the `dict.get` defaults in the source. -/
structure RawProduct where
  name : String := ""
  platform : String := ""
  product_id : String := ""
  price : Option ℚ := none
  original_price : Option ℚ := none
  availability : Option Bool := none
  url : String := ""
  image_url : String := ""
  description : String := ""
  brand : Option String := none
deriving DecidableEq, Repr

/-! ## Field extraction (`ProductETL`) -/

/-- The fixed category keyword table of `_categorize_product`, in source
(dict-insertion) order. -/
def categoryKeywords : List (String × List String) :=
  [("Electronics", ["筆電", "電腦", "手機", "iphone", "ipad", "平板", "耳機", "相機", "螢幕"]),
   ("Fashion", ["運動鞋", "鞋", "包包", "手錶", "衣服", "褲子", "牛仔褲", "外套"]),
   ("Home", ["咖啡機", "吸塵器", "床墊", "餐具", "廚具", "家具", "燈具"]),
   ("Gaming", ["switch", "ps5", "xbox", "遊戲", "手把", "鍵盤", "滑鼠"]),
   ("Beauty", ["面膜", "防曬", "口紅", "香水", "化妝", "保養", "護膚"]),
   ("Sports", ["瑜珈", "啞鈴", "跑鞋", "籃球", "運動", "健身"]),
   ("Books", ["小說", "食譜", "書", "漫畫", "雜誌"]),
   ("Food", ["零食", "茶葉", "蜂蜜", "堅果", "咖啡", "茶"])]

/-- `_categorize_product`: first category one of whose keywords occurs in
the lowercased name; its (cached) Category row is returned even when the
cache misses (then `none`), exactly as the Python `return` does. -/
def categorizeProduct (catCache : List (String × Category)) (name : String) : Option Category :=
  let nl := name.toLower
  match categoryKeywords.find? (fun kv => kv.2.any (fun k => isSubstr k nl)) with
  | some kv => catCache.lookup kv.1
  | none => none

/-- The fixed brand list of `_extract_brand_model`. -/
def knownBrands : List String :=
  ["APPLE", "SAMSUNG", "ASUS", "ACER", "MSI", "LENOVO", "HP", "DELL", "SONY", "LG", "NIKE", "ADIDAS"]

/-- Case-insensitive literal match of `pat` at the head of `cs`,
returning the rest on success. -/
def matchCI : List Char → List Char → Option (List Char)
  | [], cs => some cs
  | _ :: _, [] => none
  | p :: ps, c :: cs => if c.toLower = p.toLower then matchCI ps cs else none

/-- One attempt of the regex `iPhone\s*(\d+\s*\w*)` (case-insensitive) at
the head of `cs`; returns the text of group 1. -/
def iphoneModelAt (cs : List Char) : Option (List Char) :=
  match matchCI "iphone".data cs with
  | none => none
  | some rest =>
    let rest1 := rest.dropWhile isSpaceChar
    let ds := rest1.takeWhile Char.isDigit
    if ds = [] then none
    else
      let rest2 := rest1.drop ds.length
      let sp := rest2.takeWhile isSpaceChar
      let rest3 := rest2.drop sp.length
      let ws := rest3.takeWhile isWordChar
      some (ds ++ sp ++ ws)

/-- `re.search` for the iPhone model pattern: first position where the
whole pattern matches. -/
def searchIphoneModel : List Char → Option (List Char)
  | [] => none
  | c :: rest =>
    match iphoneModelAt (c :: rest) with
    | some m => some m
    | none => searchIphoneModel rest

/-- `_extract_brand_model`: first known brand occurring in the uppercased
name (title-cased), and the iPhone model when the literal `iPhone`
occurs in the name. -/
def extractBrandModel (name : String) : String × String :=
  let nameUpper := name.toUpper
  let brand :=
    match knownBrands.find? (fun b => isSubstr b nameUpper) with
    | some b => pyTitle b
    | none => ""
  let model :=
    if isSubstr "iPhone" name then
      match searchIphoneModel name.data with
      | some m => String.mk (pyStrip m)
      | none => ""
    else ""
  (brand, model)

/-- `_extract_pricing`: current price is the raw price (missing → `0`),
original price defaults to the current price, and the discount is
`(original - current) / original * 100` when `original > current > …`
else `0`.  Note: the source does *not* clamp a negative raw price. -/
def extractPricing (raw : RawProduct) : ℚ × ℚ × ℚ :=
  let current := raw.price.getD 0
  let original := raw.original_price.getD current
  let discount : ℚ :=
    if current < original ∧ 0 < original then (original - current) / original * 100 else 0
  (current, original, discount)

/-- Python `round(x, 2)` for the exact values produced by the quality
score (k/6 for k = 0..6): round half away from zero at two decimals. -/
def round2 (q : ℚ) : ℚ := (⌊q * 100 + 1/2⌋ : ℚ) / 100

/-- `_calculate_quality_score`: six equally weighted truthiness checks,
rounded to two decimals. -/
def calculateQualityScore (raw : RawProduct) : ℚ :=
  let checks : List Bool :=
    [raw.name ≠ "" ∧ 5 < raw.name.length,
     0 < raw.price.getD 0,
     raw.url ≠ "",
     raw.image_url ≠ "",
     raw.brand.getD "" ≠ "",
     raw.description ≠ ""]
  round2 ((checks.countP id : ℚ) / 6)

/-! ## Upsert engine (`_process_single_product`) -/

/-- `db.query(Product).filter(platform_id == …, platform_product_id == …).first()`:
the first row with the given key, together with its position. -/
def findProduct : List Product → Nat → String → Option (Nat × Product)
  | [], _, _ => none
  | p :: ps, pid, prodid =>
    if p.platform_id = pid ∧ p.platform_product_id = prodid then some (0, p)
    else
      match findProduct ps pid prodid with
      | some (i, q) => some (i + 1, q)
      | none => none

/-- The in-place update of an existing catalog row (the `if existing:`
branch).  Only the listed fields are assigned; in particular
`data_quality_score`, `created_at` and `id` are not touched. -/
def updatedEntry (ex : Product) (name nname : String) (pricing : ℚ × ℚ × ℚ)
    (avail : Bool) (url imgUrl : String) (now : Nat) : Product :=
  { ex with
    name := name
    normalized_name := nname
    current_price := pricing.1
    original_price := pricing.2.1
    discount_percentage := pricing.2.2
    is_available := avail
    url := url
    image_url := imgUrl
    last_scraped := now
    scrape_count := some (ex.scrape_count.getD 0 + 1) }

/-- The freshly created catalog row (the `else` branch); `scrape_count`
and `created_at` get their column defaults at flush time. -/
def newEntry (freshId : Nat) (name nname : String) (raw : RawProduct)
    (brandModel : String × String) (platformId : Nat) (category : Option Category)
    (pricing : ℚ × ℚ × ℚ) (qscore : ℚ) (now : Nat) : Product :=
  { id := freshId
    name := name
    normalized_name := nname
    description := raw.description
    brand := brandModel.1
    model := brandModel.2
    platform_id := platformId
    platform_product_id := raw.product_id
    url := raw.url
    image_url := raw.image_url
    category_id := category.map (fun c => c.id)
    current_price := pricing.1
    original_price := pricing.2.1
    discount_percentage := pricing.2.2
    is_available := raw.availability.getD true
    data_quality_score := qscore
    last_scraped := now
    scrape_count := some 1
    created_at := now }

/-- The price-history snapshot appended for every observation. -/
def mkHistory (productId platformId : Nat) (pricing : ℚ × ℚ × ℚ)
    (avail : Bool) (now : Nat) (sessionId : String) : PriceHistoryRecord :=
  { product_id := productId
    platform_id := platformId
    price := pricing.1
    original_price := pricing.2.1
    discount_percentage := pricing.2.2
    availability := avail
    scraped_at := now
    scrape_session_id := sessionId }

/-- `ProductETL._process_single_product`.  Returns the position and value
of the touched catalog row (`None` when the record is rejected) and the
updated store.  Positions stand in for Python object identity: the
matcher later reads the rows at these positions. -/
def processSingleProduct (db : DB) (platformCache : List (String × Platform))
    (catCache : List (String × Category)) (sessionId : String) (now : Nat)
    (raw : RawProduct) : Option (Nat × Product) × DB :=
  let name := cleanText raw.name
  if name = "" ∨ name.length < 3 then (none, db) else
  let nname := normalizeName name
  match platformCache.lookup raw.platform.toLower with
  | none => (none, db)
  | some platform =>
    let category := categorizeProduct catCache name
    let pricing := extractPricing raw
    let brandModel := extractBrandModel name
    match findProduct db.products platform.id raw.product_id with
    | some (i, ex) =>
      let upd := updatedEntry ex name nname pricing (raw.availability.getD true) raw.url raw.image_url now
      let hist := mkHistory upd.id platform.id pricing (raw.availability.getD true) now sessionId
      (some (i, upd), { db with products := db.products.set i upd, history := db.history ++ [hist] })
    | none =>
      let p := newEntry db.nextProductId name nname raw brandModel platform.id category pricing
        (calculateQualityScore raw) now
      let hist := mkHistory p.id platform.id pricing (raw.availability.getD true) now sessionId
      (some (db.products.length, p),
       { db with products := db.products ++ [p], history := db.history ++ [hist],
                 nextProductId := db.nextProductId + 1 })

/-! ## `difflib.SequenceMatcher(None, a, b).ratio()`

Faithful embedding of CPython difflib for `isjunk = None`: `b2j` maps
each character of `b` to its (ascending) index list, with "popular"
characters purged when `len(b) >= 200` (autojunk); the junk set `bjunk`
is empty, so the two junk extension loops of `find_longest_match` are
dead code and the two non-junk extension loops only test character
equality. -/

/-- Ascending list of indices at which `c` occurs in `b`. -/
def idxList (b : List Char) (c : Char) : List Nat :=
  (List.range b.length).filter (fun j => b.get? j = some c)

/-- `b2j` after the autojunk purge of popular elements. -/
def b2jFun (b : List Char) (c : Char) : List Nat :=
  if 200 ≤ b.length ∧ b.length / 100 + 1 < (idxList b c).length then []
  else idxList b c

/-- Lookup in the `j2len` association list, default 0. -/
def lookupJ2 (m : List (Nat × Nat)) (j : Nat) : Nat := (m.lookup j).getD 0

/-- The inner `for j in b2j.get(a[i], [])` loop of `find_longest_match`.
State: current best `(besti, bestj, bestsize)` and the `newj2len` row
being built; `j2len` is the previous row.  `j < blo` is skipped,
`j >= bhi` breaks (the index list is ascending). -/
def flmInner (blo bhi i : Nat) (j2len : List (Nat × Nat)) :
    List Nat → (Nat × Nat × Nat) → List (Nat × Nat) → ((Nat × Nat × Nat) × List (Nat × Nat))
  | [], best, newj2len => (best, newj2len)
  | j :: js, best, newj2len =>
    if j < blo then flmInner blo bhi i j2len js best newj2len
    else if bhi ≤ j then (best, newj2len)
    else
      let k := (if j = 0 then 0 else lookupJ2 j2len (j - 1)) + 1
      let best' := if best.2.2 < k then (i + 1 - k, j + 1 - k, k) else best
      flmInner blo bhi i j2len js best' ((j, k) :: newj2len)

/-- The first (non-junk) extension loop: extend the block to the left
over equal characters (structural recursion on `besti`; the loop guard
`besti > alo` fails anyway at `besti = 0`). -/
def extLeft (a b : List Char) (alo blo : Nat) : Nat → Nat → Nat → Nat × Nat × Nat
  | 0, bestj, bestsize => (0, bestj, bestsize)
  | bi + 1, bestj, bestsize =>
    if alo < bi + 1 ∧ blo < bestj ∧
        (a.get? bi).isSome ∧ a.get? bi = b.get? (bestj - 1) then
      extLeft a b alo blo bi (bestj - 1) (bestsize + 1)
    else (bi + 1, bestj, bestsize)

/-- The second (non-junk) extension loop: extend the block to the right
over equal characters.  Each iteration shrinks `ahi - (besti + bestsize)`
by one, so that quantity is used as structural fuel; at fuel 0 the guard
`besti + bestsize < ahi` is false as well, so the two agree. -/
def extRightAux (a b : List Char) (ahi bhi besti bestj : Nat) : Nat → Nat → Nat
  | 0, bestsize => bestsize
  | fuel + 1, bestsize =>
    if besti + bestsize < ahi ∧ bestj + bestsize < bhi ∧
        (a.get? (besti + bestsize)).isSome ∧
        a.get? (besti + bestsize) = b.get? (bestj + bestsize) then
      extRightAux a b ahi bhi besti bestj fuel (bestsize + 1)
    else bestsize

def extRight (a b : List Char) (ahi bhi besti bestj bestsize : Nat) : Nat :=
  extRightAux a b ahi bhi besti bestj (ahi - (besti + bestsize)) bestsize

/-- `SequenceMatcher.find_longest_match(alo, ahi, blo, bhi)` (junk set
empty).  Returns `(besti, bestj, bestsize)`. -/
def findLongestMatch (a b : List Char) (alo ahi blo bhi : Nat) : Nat × Nat × Nat :=
  let st := (List.range' alo (ahi - alo)).foldl
    (fun (st : (Nat × Nat × Nat) × List (Nat × Nat)) i =>
      flmInner blo bhi i st.2 (b2jFun b (a.getD i ' ')) st.1 [])
    ((alo, blo, 0), [])
  let r := extLeft a b alo blo st.1.1 st.1.2.1 st.1.2.2
  (r.1, r.2.1, extRight a b ahi bhi r.1 r.2.1 r.2.2)

/-- Total size of all matching blocks found by the recursive divide and
conquer of `get_matching_blocks` (the queue in the source processes the
sub-windows independently, so the sum is order-independent).  `fuel`
dominates the recursion depth: every recursive call is on a window whose
`a`-extent is strictly smaller, so `ahi - alo + 1` fuel suffices at the
top call. -/
def matchesTotal (a b : List Char) : Nat → Nat → Nat → Nat → Nat → Nat
  | 0, _, _, _, _ => 0
  | fuel + 1, alo, ahi, blo, bhi =>
    let m := findLongestMatch a b alo ahi blo bhi
    let i := m.1
    let j := m.2.1
    let k := m.2.2
    if k = 0 then 0
    else k
      + (if alo < i ∧ blo < j then matchesTotal a b fuel alo i blo j else 0)
      + (if i + k < ahi ∧ j + k < bhi then matchesTotal a b fuel (i + k) ahi (j + k) bhi else 0)

/-- `sum(block.size for block in get_matching_blocks())`. -/
def seqMatches (a b : List Char) : Nat :=
  matchesTotal a b (a.length + 1) 0 a.length 0 b.length

/-- `SequenceMatcher(None, a, b).ratio()`:
`2.0 * matches / (len(a) + len(b))`, and `1.0` when both are empty. -/
def sequenceRatio (sa sb : String) : ℚ :=
  let a := sa.data
  let b := sb.data
  if a.length + b.length = 0 then 1
  else (2 * seqMatches a b : ℚ) / (a.length + b.length)

/-! ## Matcher (`_find_product_matches`, `_calculate_similarity`) -/

/-- `ProductETL._calculate_similarity`: name ratio, plus `0.3` when both
brands are non-empty and equal case-insensitively, plus `0.1` when both
prices are truthy (non-zero) and within 30% of each other, clamped above
by `1`. -/
def calculateSimilarity (a b : Product) : ℚ :=
  let nameSim := sequenceRatio a.normalized_name b.normalized_name
  let brandSim : ℚ :=
    if a.brand ≠ "" ∧ b.brand ≠ "" ∧ a.brand.toLower = b.brand.toLower then 3/10 else 0
  let priceSim : ℚ :=
    if a.current_price ≠ 0 ∧ b.current_price ≠ 0 then
      let priceDiff := |a.current_price - b.current_price|
      let maxPrice := max a.current_price b.current_price
      if 0 < maxPrice then
        (if 7/10 < 1 - priceDiff / maxPrice then 1/10 else 0)
      else 0
    else 0
  min (nameSim + brandSim + priceSim) 1

/-- The pre-insertion existence query: any row linking `x` and `y` in
either orientation, with no filter on `is_active` or `is_verified`. -/
def existsMatchRow (ms : List ProductMatch) (x y : Nat) : Bool :=
  ms.any (fun m =>
    (m.product_a_id == x && m.product_b_id == y) ||
    (m.product_a_id == y && m.product_b_id == x))

/-- The `ProductMatch` row inserted for a qualifying pair. -/
def mkEdge (a b : Product) (sim : ℚ) : ProductMatch :=
  { product_a_id := a.id
    product_b_id := b.id
    similarity_score := sim
    match_type := if sim < 9/10 then "similar" else "exact"
    match_algorithm := "name_similarity"
    is_verified := false
    is_active := true }

/-- One iteration of the inner pair loop.  `visible` is what
`db.query(ProductMatch)` can see (the session has `autoflush=False`, so
the pending inserts accumulated in `pending` are not visible to the
query); `pending` is the list of `db.add`-ed rows so far. -/
def processPair (visible pending : List ProductMatch) (a b : Product) : List ProductMatch :=
  if a.platform_id = b.platform_id then pending
  else
    let sim := calculateSimilarity a b
    if 7/10 ≤ sim then
      if existsMatchRow visible a.id b.id then pending
      else pending ++ [mkEdge a b sim]
    else pending

/-- `for product_b in products[i+1:]`. -/
def innerPairs (visible : List ProductMatch) (a : Product) :
    List Product → List ProductMatch → List ProductMatch
  | [], pending => pending
  | b :: bs, pending => innerPairs visible a bs (processPair visible pending a b)

/-- `for i, product_a in enumerate(products)`. -/
def matchLoop (visible : List ProductMatch) :
    List Product → List ProductMatch → List ProductMatch
  | [], pending => pending
  | a :: rest, pending => matchLoop visible rest (innerPairs visible a rest pending)

/-- `ProductETL._find_product_matches`, including the commit of the
pending rows: the resulting match table is the visible rows followed by
the rows added during the run. -/
def findProductMatches (visible : List ProductMatch) (ps : List Product) : List ProductMatch :=
  visible ++ matchLoop visible ps []

/-! ## Pipeline orchestrator (`process_scraper_results`) -/

/-- Result dict of a successful run. -/
structure RunResult where
  session_id : String
  products_processed : Nat
  success_rate : ℚ
  products : List Product
deriving DecidableEq, Repr

/-- `_build_caches`: platform and category name lookup tables.  Names are
unique in the store (UNIQUE constraint), so first-match association-list
lookup agrees with the Python dict comprehension. -/
def buildPlatformCache (ps : List Platform) : List (String × Platform) :=
  ps.map (fun p => (p.name, p))

def buildCategoryCache (cs : List Category) : List (String × Category) :=
  cs.map (fun c => (c.name, c))

/-- The per-product loop: processes each raw record (a record rejected by
`_process_single_product` is skipped, mirroring the `if product:` test
and the per-record `except: continue`), collecting the positions of the
touched catalog rows in order. -/
def processAll (db : DB) (platformCache : List (String × Platform))
    (catCache : List (String × Category)) (sessionId : String) (now : Nat) :
    List RawProduct → List Nat → DB × List Nat
  | [], acc => (db, acc)
  | raw :: rest, acc =>
    match processSingleProduct db platformCache catCache sessionId now raw with
    | (some (i, _), db') => processAll db' platformCache catCache sessionId now rest (acc ++ [i])
    | (none, db') => processAll db' platformCache catCache sessionId now rest acc

/-- `ProductETL.process_scraper_results`.  The whole run is one
transaction, committed only at the end; `crash = some msg` models an
unhandled exception raised inside the `try:` block after the session
row was added (e.g. a store failure): the source then does
`db.rollback()` and re-raises, so the committed store is returned
unchanged — the flushed-but-uncommitted session row is discarded.
The Python object identity of the products handed to the matcher is
modelled by reading the rows at the recorded positions from the
post-upsert store. -/
def processScraperResults (db : DB) (raws : List RawProduct) (query sessionId : String)
    (now : Nat) (crash : Option String) : Except String RunResult × DB :=
  match crash with
  | some msg => (.error msg, db)
  | none =>
    let sess0 : ScrapeSession :=
      { session_id := sessionId
        query := query
        platforms_scraped := (raws.map (fun r => r.platform)).dedup
        started_at := some now
        status := "running" }
    let platformCache := buildPlatformCache db.platforms
    let catCache := buildCategoryCache db.categories
    let pr := processAll db platformCache catCache sessionId now raws []
    let db1 := pr.1
    let idxs := pr.2
    let ps := idxs.filterMap (fun i => db1.products.get? i)
    let allMatches := findProductMatches db1.product_matches ps
    let rate : ℚ := if raws.length = 0 then 0 else (idxs.length : ℚ) / raws.length
    let sessF := { sess0 with
      products_found := idxs.length
      completed_at := some now
      status := "completed"
      success_rate := rate }
    let db2 := { db1 with product_matches := allMatches, sessions := db.sessions ++ [sessF] }
    (.ok { session_id := sessionId, products_processed := idxs.length,
           success_rate := rate, products := ps }, db2)

/-! ## Validator (`src/etl/schemas.py`, `src/etl/load.py`) -/

/-- The supported-platform enum of `ProductSchema.validate_platform`. -/
def allowedPlatforms : List String := ["pchome", "momo", "shopee", "yahoo", "ruten"]

/-- The characters of the spam class removed by `clean_product_name`
(the literal class in the source, deduplicated). -/
def spamChars : List Char :=
  [Char.ofNat 0x432, Char.ofNat 0x4b3, Char.ofNat 0x2026, Char.ofNat 0x4b6,
   Char.ofNat 0x4ef, Char.ofNat 0x497, Char.ofNat 0x4a3, Char.ofNat 0x401,
   Char.ofNat 0x440, Char.ofNat 0x4b9, Char.ofNat 0x2019, Char.ofNat 0x4ba,
   Char.ofNat 0x201d, Char.ofNat 0x498]

/-- `clean_product_name`: `' '.join(v.split())`, delete spam characters,
strip. -/
def pyNameClean (s : String) : String :=
  let cs := pyStrip (collapseWs s.data)
  String.mk (pyStrip (cs.filter (fun c => ¬ spamChars.contains c)))

/-- Delete `<...>` tag occurrences (`re.sub(r'<[^>]+>', '', v)`): at each
`<`, the tag closes at the next `>` provided at least one character lies
between. -/
def stripHtmlTagsAux : Nat → List Char → List Char
  | 0, cs => cs
  | _ + 1, [] => []
  | fuel + 1, c :: rest =>
    if c = '<' then
      match (rest.takeWhile (fun d => d ≠ '>')).length with
      | 0 => c :: stripHtmlTagsAux fuel rest
      | n + 1 =>
        if n + 1 < rest.length then stripHtmlTagsAux fuel (rest.drop (n + 2))
        else c :: stripHtmlTagsAux fuel rest
    else c :: stripHtmlTagsAux fuel rest

/-- Every step consumes at least one character, so `cs.length` fuel
suffices. -/
def stripHtmlTags (cs : List Char) : List Char := stripHtmlTagsAux cs.length cs

/-- `clean_description`: strip HTML tags, then `' '.join(v.split())`. -/
def pyDescriptionClean (s : String) : String :=
  String.mk (pyStrip (collapseWs (stripHtmlTags s.data)))

/-- The minimal well-formed-URL regex `^https?://[^\s/$.?#].[^\s]*$`
applied after the scheme-prefix check. -/
def urlPatternOk (s : String) : Bool :=
  let afterScheme : Option (List Char) :=
    if s.startsWith "https://" then some (s.data.drop 8)
    else if s.startsWith "http://" then some (s.data.drop 7)
    else none
  match afterScheme with
  | none => false
  | some rest =>
    match rest with
    | c1 :: c2 :: rest' =>
      ¬ (isSpaceChar c1 ∨ c1 = '/' ∨ c1 = '$' ∨ c1 = '.' ∨ c1 = '?' ∨ c1 = '#') ∧
      c2 ≠ '\n' ∧ rest'.all (fun c => ¬ isSpaceChar c)
    | _ => false

/-- A record as seen by `ProductSchema` (after transformation): keys are
typed, optional keys are `Option`. -/
structure PSInput where
  platform : String
  product_id : String
  name : String
  price : ℚ
  original_price : Option ℚ := none
  url : String
  image_url : Option String := none
  brand : Option String := none
  description : Option String := none
  availability : Bool := true
deriving DecidableEq, Repr

/-- `ProductSchema` validation: field constraints and validators in field
order; on success the normalized record (platform lowercased, name and
description cleaned) is returned. -/
def schemaValidate (p : PSInput) : Except String PSInput :=
  if ¬ allowedPlatforms.contains p.platform.toLower then
    .error "Platform must be one of the supported platforms"
  else if p.product_id.length < 1 then .error "product_id must be non-empty"
  else if p.name.length < 1 ∨ 500 < p.name.length then .error "name length out of range"
  else if p.price < 0 then .error "Price cannot be negative"
  else if 10000000 < p.price then .error "Price seems unreasonably high"
  else if p.original_price.elim false (fun v => v < 0) then .error "Price cannot be negative"
  else if p.original_price.elim false (fun v => 10000000 < v) then
    .error "Price seems unreasonably high"
  else if ¬ (p.url.startsWith "http://" ∨ p.url.startsWith "https://") then
    .error "URL must start with http or https"
  else if ¬ urlPatternOk p.url then .error "Invalid URL format"
  else if p.brand.elim false (fun b => 100 < b.length) then .error "brand too long"
  else if p.description.elim false (fun d => 2000 < d.length) then .error "description too long"
  else .ok { p with
    platform := p.platform.toLower
    name := pyNameClean p.name
    description := p.description.map pyDescriptionClean }

/-- `DataLoader._validate_products`: each record is validated
independently through `ProductSchema`; failures are collected as
messages, successes in order.  There is no cross-record (duplicate)
check on this path. -/
def validateProducts : List PSInput → Nat → List PSInput × List String
  | [], _ => ([], [])
  | p :: ps, i =>
    let rest := validateProducts ps (i + 1)
    match schemaValidate p with
    | .ok v => (v :: rest.1, rest.2)
    | .error e => (rest.1, ("Validation failed for product " ++ toString (i + 1) ++ ": " ++ e) :: rest.2)

/-- The duplicate scan of `BulkProductSchema.validate_product_list`. -/
def bulkDupScan : List PSInput → List (String × String) → Except String Unit
  | [], _ => .ok ()
  | p :: ps, seen =>
    if seen.contains (p.platform, p.product_id) then
      .error ("Duplicate product found: " ++ p.platform ++ ":" ++ p.product_id)
    else bulkDupScan ps ((p.platform, p.product_id) :: seen)

/-- `BulkProductSchema.validate_product_list`: an empty list or any
duplicate `(platform, product_id)` raises, failing the whole batch. -/
def bulkValidateProductList (products : List PSInput) : Except String (List PSInput) :=
  if products = [] then .error "Product list cannot be empty"
  else
    match bulkDupScan products [] with
    | .ok _ => .ok products
    | .error e => .error e

/-- Whether some later record repeats the `(platform, product_id)` key of
an earlier one. -/
def hasDupKey (ps : List PSInput) : Bool :=
  ¬ (ps.map (fun p => (p.platform, p.product_id))).Nodup

/-! ## Spec-side comparison definition (for the refinement check of the
similarity formula) -/

/-- The composite similarity as the spec states it (claim C3 / spec
§4.6): name ratio, plus 0.3 for matching brands, plus 0.1 when
`min(price)/max(price) > 0.7`, clamped to `[0, 1]`.  This follows the
spec text, *not* the source, and is only used to compare against
`calculateSimilarity`. -/
def specCompositeSimilarity (a b : Product) : ℚ :=
  let nameSim := sequenceRatio a.normalized_name b.normalized_name
  let brandSim : ℚ :=
    if a.brand ≠ "" ∧ b.brand ≠ "" ∧ a.brand.toLower = b.brand.toLower then 3/10 else 0
  let priceSim : ℚ :=
    if 7/10 < min a.current_price b.current_price / max a.current_price b.current_price
    then 1/10 else 0
  min (nameSim + brandSim + priceSim) 1

/-- The price boost as the source actually guards it: both prices
truthy (non-zero), the larger strictly positive, and the prices within
30% of each other (`min/max > 0.7`). -/
def codePriceBoost (a b : Product) : ℚ :=
  if a.current_price ≠ 0 ∧ b.current_price ≠ 0 ∧ 0 < max a.current_price b.current_price ∧
      7/10 < min a.current_price b.current_price / max a.current_price b.current_price
  then 1/10 else 0

/-- The brand boost of `_calculate_similarity`. -/
def brandBoost (a b : Product) : ℚ :=
  if a.brand ≠ "" ∧ b.brand ≠ "" ∧ a.brand.toLower = b.brand.toLower then 3/10 else 0

/-- A pair the matcher acts on: different platforms and composite
similarity at or above the 0.7 threshold. -/
def Qualifies (a b : Product) : Prop :=
  a.platform_id ≠ b.platform_id ∧ 7/10 ≤ calculateSimilarity a b

/-- `a` occurs strictly before `b` in `ps` (the ordered pairs the nested
matcher loops enumerate). -/
def PairAt (a b : Product) (ps : List Product) : Prop :=
  ∃ l1 l2 l3, ps = l1 ++ a :: l2 ++ b :: l3

/-! ## Helper lemmas about the matcher loops -/

theorem processPair_insert (v p : List ProductMatch) (a b : Product)
    (hplat : a.platform_id ≠ b.platform_id) (hsim : 7/10 ≤ calculateSimilarity a b)
    (hex : existsMatchRow v a.id b.id = false) :
    processPair v p a b = p ++ [mkEdge a b (calculateSimilarity a b)] := by
  unfold processPair
  rw [if_neg hplat, if_pos hsim, if_neg (by simp [hex])]

theorem processPair_cases (v p : List ProductMatch) (a b : Product) :
    processPair v p a b = p ∨
    (a.platform_id ≠ b.platform_id ∧ 7/10 ≤ calculateSimilarity a b ∧
      existsMatchRow v a.id b.id = false ∧
      processPair v p a b = p ++ [mkEdge a b (calculateSimilarity a b)]) := by
  by_cases hplat : a.platform_id = b.platform_id
  · exact Or.inl (by unfold processPair; rw [if_pos hplat])
  · by_cases hsim : 7/10 ≤ calculateSimilarity a b
    · by_cases hex : existsMatchRow v a.id b.id = true
      · refine Or.inl ?_
        unfold processPair
        rw [if_neg hplat, if_pos hsim, if_pos hex]
      · rw [Bool.not_eq_true] at hex
        exact Or.inr ⟨hplat, hsim, hex, processPair_insert v p a b hplat hsim hex⟩
    · exact Or.inl (by unfold processPair; rw [if_neg hplat, if_neg hsim])

theorem innerPairs_suffix (v : List ProductMatch) (a : Product) :
    ∀ bs p, ∃ t, innerPairs v a bs p = p ++ t := by
  intro bs
  induction bs with
  | nil => intro p; exact ⟨[], by simp [innerPairs]⟩
  | cons c cs ih =>
    intro p
    obtain ⟨t, ht⟩ := ih (processPair v p a c)
    rcases processPair_cases v p a c with h | ⟨_, _, _, h⟩ <;> rw [h] at ht
    · exact ⟨t, by simp only [innerPairs]; rw [h]; exact ht⟩
    · refine ⟨[mkEdge a c (calculateSimilarity a c)] ++ t, ?_⟩
      simp only [innerPairs]
      rw [h, ht, List.append_assoc]

theorem matchLoop_suffix (v : List ProductMatch) :
    ∀ ps p, ∃ t, matchLoop v ps p = p ++ t := by
  intro ps
  induction ps with
  | nil => intro p; exact ⟨[], by simp [matchLoop]⟩
  | cons a rest ih =>
    intro p
    obtain ⟨t1, ht1⟩ := innerPairs_suffix v a rest p
    obtain ⟨t2, ht2⟩ := ih (innerPairs v a rest p)
    rw [ht1] at ht2
    refine ⟨t1 ++ t2, ?_⟩
    simp only [matchLoop]
    rw [ht1, ht2, List.append_assoc]

theorem existsMatchRow_append (xs ys : List ProductMatch) (x y : Nat) :
    existsMatchRow (xs ++ ys) x y = (existsMatchRow xs x y || existsMatchRow ys x y) := by
  simp [existsMatchRow, List.any_append]

theorem existsMatchRow_of_mem (ms : List ProductMatch) (e : ProductMatch) (x y : Nat)
    (he : e ∈ ms)
    (hid : e.product_a_id = x ∧ e.product_b_id = y ∨ e.product_a_id = y ∧ e.product_b_id = x) :
    existsMatchRow ms x y = true := by
  unfold existsMatchRow
  rw [List.any_eq_true]
  refine ⟨e, he, ?_⟩
  rcases hid with ⟨h1, h2⟩ | ⟨h1, h2⟩ <;> simp [h1, h2]

theorem existsMatchRow_edge (a b : Product) (s : ℚ) :
    existsMatchRow [mkEdge a b s] a.id b.id = true := by
  simp [existsMatchRow, mkEdge]

theorem innerPairs_covers (v : List ProductMatch) (a : Product) :
    ∀ bs p b, b ∈ bs → Qualifies a b →
      existsMatchRow v a.id b.id = true ∨
      existsMatchRow (innerPairs v a bs p) a.id b.id = true := by
  intro bs
  induction bs with
  | nil => intro p b hb; exact absurd hb (List.not_mem_nil b)
  | cons c cs ih =>
    intro p b hb hq
    rcases List.mem_cons.mp hb with rfl | hb'
    · by_cases hex : existsMatchRow v a.id b.id = true
      · exact Or.inl hex
      · rw [Bool.not_eq_true] at hex
        refine Or.inr ?_
        have h := processPair_insert v p a b hq.1 hq.2 hex
        obtain ⟨t, ht⟩ := innerPairs_suffix v a cs (processPair v p a b)
        simp only [innerPairs]
        rw [ht, h, List.append_assoc, existsMatchRow_append, existsMatchRow_append,
          existsMatchRow_edge]
        simp
    · rcases ih (processPair v p a c) b hb' hq with h | h
      · exact Or.inl h
      · exact Or.inr (by simp only [innerPairs]; exact h)

theorem matchLoop_covers (v : List ProductMatch) :
    ∀ ps p a b, PairAt a b ps → Qualifies a b →
      existsMatchRow v a.id b.id = true ∨
      existsMatchRow (matchLoop v ps p) a.id b.id = true := by
  intro ps
  induction ps with
  | nil =>
    intro p a b hpair
    obtain ⟨l1, l2, l3, h⟩ := hpair
    exact absurd h (by simp)
  | cons x rest ih =>
    intro p a b hpair hq
    obtain ⟨l1, l2, l3, h⟩ := hpair
    cases l1 with
    | nil =>
      rw [List.nil_append] at h
      injection h with hxa hrest
      subst hxa
      have hb : b ∈ rest := by rw [hrest]; simp
      rcases innerPairs_covers v x rest p b hb hq with hc | hc
      · exact Or.inl hc
      · refine Or.inr ?_
        obtain ⟨t, ht⟩ := matchLoop_suffix v rest (innerPairs v x rest p)
        simp only [matchLoop]
        rw [ht, existsMatchRow_append, hc]
        simp
    | cons y l1' =>
      rw [List.cons_append] at h
      injection h with hxy hrest
      have hpair' : PairAt a b rest := ⟨l1', l2, l3, hrest⟩
      rcases ih (innerPairs v x rest p) a b hpair' hq with hc | hc
      · exact Or.inl hc
      · exact Or.inr (by simp only [matchLoop]; exact hc)

theorem processPair_noop (v p : List ProductMatch) (a b : Product)
    (h : Qualifies a b → existsMatchRow v a.id b.id = true) :
    processPair v p a b = p := by
  by_cases hplat : a.platform_id = b.platform_id
  · unfold processPair; rw [if_pos hplat]
  · by_cases hsim : 7/10 ≤ calculateSimilarity a b
    · have hex := h ⟨hplat, hsim⟩
      unfold processPair
      rw [if_neg hplat, if_pos hsim, if_pos hex]
    · unfold processPair; rw [if_neg hplat, if_neg hsim]

theorem innerPairs_noop (v : List ProductMatch) (a : Product) :
    ∀ bs p, (∀ b ∈ bs, Qualifies a b → existsMatchRow v a.id b.id = true) →
      innerPairs v a bs p = p := by
  intro bs
  induction bs with
  | nil => intro p _; rfl
  | cons c cs ih =>
    intro p h
    have hc := processPair_noop v p a c (h c (List.mem_cons_self c cs))
    simp only [innerPairs]
    rw [hc]
    exact ih p (fun b hb => h b (List.mem_cons_of_mem c hb))

theorem matchLoop_noop (v : List ProductMatch) :
    ∀ ps p, (∀ a b, PairAt a b ps → Qualifies a b → existsMatchRow v a.id b.id = true) →
      matchLoop v ps p = p := by
  intro ps
  induction ps with
  | nil => intro p _; rfl
  | cons x rest ih =>
    intro p h
    have hinner : innerPairs v x rest p = p := by
      refine innerPairs_noop v x rest p (fun b hb hq => ?_)
      obtain ⟨l2, l3, hsplit⟩ := List.append_of_mem hb
      exact h x b ⟨[], l2, l3, by rw [hsplit]; simp⟩ hq
    simp only [matchLoop]
    rw [hinner]
    exact ih p (fun a b hpair hq => by
      obtain ⟨l1, l2, l3, hsplit⟩ := hpair
      exact h a b ⟨x :: l1, l2, l3, by rw [hsplit]; simp⟩ hq)

/-- Membership in the pending list produced by the inner loop: every row
is either carried over or was inserted for a cross-platform pair whose
pair had no visible row. -/
theorem innerPairs_mem (v : List ProductMatch) (a : Product) :
    ∀ bs p e, e ∈ innerPairs v a bs p →
      e ∈ p ∨ ∃ b ∈ bs, a.platform_id ≠ b.platform_id ∧
        7/10 ≤ calculateSimilarity a b ∧ existsMatchRow v a.id b.id = false ∧
        e = mkEdge a b (calculateSimilarity a b) := by
  intro bs
  induction bs with
  | nil => intro p e he; exact Or.inl he
  | cons c cs ih =>
    intro p e he
    simp only [innerPairs] at he
    rcases ih (processPair v p a c) e he with h | ⟨b, hb, hrest⟩
    · rcases processPair_cases v p a c with hp | ⟨h1, h2, h3, hp⟩
      · rw [hp] at h; exact Or.inl h
      · rw [hp] at h
        rcases List.mem_append.mp h with h' | h'
        · exact Or.inl h'
        · refine Or.inr ⟨c, List.mem_cons_self c cs, h1, h2, h3, ?_⟩
          simpa using h'
    · exact Or.inr ⟨b, List.mem_cons_of_mem c hb, hrest⟩

theorem matchLoop_mem (v : List ProductMatch) :
    ∀ ps p e, e ∈ matchLoop v ps p →
      e ∈ p ∨ ∃ a ∈ ps, ∃ b ∈ ps, a.platform_id ≠ b.platform_id ∧
        7/10 ≤ calculateSimilarity a b ∧ existsMatchRow v a.id b.id = false ∧
        e = mkEdge a b (calculateSimilarity a b) := by
  intro ps
  induction ps with
  | nil => intro p e he; exact Or.inl he
  | cons x rest ih =>
    intro p e he
    simp only [matchLoop] at he
    rcases ih (innerPairs v x rest p) e he with h | ⟨a, ha, b, hb, hrest⟩
    · rcases innerPairs_mem v x rest p e h with h' | ⟨b, hb, hrest⟩
      · exact Or.inl h'
      · exact Or.inr ⟨x, List.mem_cons_self x rest,
          b, List.mem_cons_of_mem x hb, hrest⟩
    · exact Or.inr ⟨a, List.mem_cons_of_mem x ha, b, List.mem_cons_of_mem x hb, hrest⟩

/-! ## Concrete fixtures used by witnesses and counterexamples -/

/-- A store that already knows the pchome and momo platforms. -/
def dbFix : DB := { platforms := [{ id := 1, name := "pchome" }, { id := 2, name := "momo" }] }

def rawFixA : RawProduct :=
  { name := "abc", platform := "pchome", product_id := "A1", price := some 100, url := "u1" }

def rawFixB : RawProduct :=
  { name := "abc", platform := "momo", product_id := "B1", price := some 100, url := "u2" }

def prodFixA : Product :=
  { id := 1, name := "abc", normalized_name := "abc", platform_id := 1,
    platform_product_id := "A1", current_price := 100 }

def prodFixB : Product :=
  { id := 2, name := "abc", normalized_name := "abc", platform_id := 2,
    platform_product_id := "B1", current_price := 100 }

/-- A match row whose `is_active` and `is_verified` flags are both
false. -/
def inactiveEdgeFix : ProductMatch :=
  { product_a_id := 1, product_b_id := 2, similarity_score := 1,
    match_type := "similar", match_algorithm := "name_similarity",
    is_verified := false, is_active := false }

/-! ## Claim theorems: the matcher (C2, C4, C10) -/

/-- Claim C2: running the matcher a second time on an unchanged catalog
state creates zero new MatchEdges — the result of the second run is
exactly the result of the first, so re-running never duplicates an edge
for a pair and never reduces the existing match set. -/
theorem matcher_second_run_idempotent (v : List ProductMatch) (ps : List Product) :
    findProductMatches (findProductMatches v ps) ps = findProductMatches v ps := by
  unfold findProductMatches
  have hcover : ∀ a b, PairAt a b ps → Qualifies a b →
      existsMatchRow (v ++ matchLoop v ps []) a.id b.id = true := by
    intro a b hpair hq
    rw [existsMatchRow_append]
    rcases matchLoop_covers v ps [] a b hpair hq with h | h <;> simp [h]
  rw [matchLoop_noop (v ++ matchLoop v ps []) ps [] hcover, List.append_nil]

/-- Claim C4: every MatchEdge the matcher creates comes from a pair of
processed catalog entries with different platform ids; no edge is
created between two entries of the same platform. -/
theorem matchEdge_cross_platform (v : List ProductMatch) (ps : List Product) (e : ProductMatch)
    (he : e ∈ findProductMatches v ps) :
    e ∈ v ∨ ∃ a ∈ ps, ∃ b ∈ ps, a.platform_id ≠ b.platform_id ∧
      e.product_a_id = a.id ∧ e.product_b_id = b.id := by
  unfold findProductMatches at he
  rcases List.mem_append.mp he with h | h
  · exact Or.inl h
  · rcases matchLoop_mem v ps [] e h with h' | ⟨a, ha, b, hb, hplat, _, _, hedge⟩
    · exact absurd h' (List.not_mem_nil e)
    · exact Or.inr ⟨a, ha, b, hb, hplat, by rw [hedge]; rfl, by rw [hedge]; rfl⟩

theorem matchEdge_cross_platform_witness :
    mkEdge prodFixA prodFixB (calculateSimilarity prodFixA prodFixB) ∈
      findProductMatches [] [prodFixA, prodFixB] ∧
    (mkEdge prodFixA prodFixB (calculateSimilarity prodFixA prodFixB) ∈ ([] : List ProductMatch) ∨
      ∃ a ∈ [prodFixA, prodFixB], ∃ b ∈ [prodFixA, prodFixB],
        a.platform_id ≠ b.platform_id ∧
        (mkEdge prodFixA prodFixB (calculateSimilarity prodFixA prodFixB)).product_a_id = a.id ∧
        (mkEdge prodFixA prodFixB (calculateSimilarity prodFixA prodFixB)).product_b_id = b.id) :=
  ⟨by with_unfolding_all decide,
   matchEdge_cross_platform [] [prodFixA, prodFixB] _ (by with_unfolding_all decide)⟩

/-- Claim C10 (amended): any row already visible in the match table
between two entries — in either orientation and regardless of its
`is_active`/`is_verified` flags — blocks insertion of a new edge for
that pair, because the existence query does not filter on the flags; and
every edge a run inserts is for a pair with no row visible at the start
of the run.  (Rows added earlier in the same run are pending and not
visible to the query, so one run can still insert duplicates for a pair
it reaches twice — see the counterexample.) -/
theorem existingRow_blocks_insert :
    (∀ v p (a b : Product) e, e ∈ v →
        (e.product_a_id = a.id ∧ e.product_b_id = b.id ∨
         e.product_a_id = b.id ∧ e.product_b_id = a.id) →
        processPair v p a b = p) ∧
    (∀ v ps e, e ∈ matchLoop v ps [] →
        existsMatchRow v e.product_a_id e.product_b_id = false) := by
  constructor
  · intro v p a b e he hid
    exact processPair_noop v p a b (fun _ => existsMatchRow_of_mem v e a.id b.id he hid)
  · intro v ps e he
    rcases matchLoop_mem v ps [] e he with h | ⟨a, _, b, _, _, _, hex, hedge⟩
    · exact absurd h (List.not_mem_nil e)
    · rw [hedge]
      simpa [mkEdge] using hex

theorem existingRow_blocks_insert_witness :
    inactiveEdgeFix ∈ [inactiveEdgeFix] ∧
    (inactiveEdgeFix.product_a_id = prodFixA.id ∧ inactiveEdgeFix.product_b_id = prodFixB.id ∨
     inactiveEdgeFix.product_a_id = prodFixB.id ∧ inactiveEdgeFix.product_b_id = prodFixA.id) ∧
    processPair [inactiveEdgeFix] [] prodFixA prodFixB = [] :=
  ⟨by with_unfolding_all decide, by with_unfolding_all decide,
   existingRow_blocks_insert.1 [inactiveEdgeFix] [] prodFixA prodFixB inactiveEdgeFix
     (by with_unfolding_all decide) (by with_unfolding_all decide)⟩

/-- Claim C10, counterexample to the original claim: one pipeline run on
a batch that contains the same (platform, product_id) twice hands the
same catalog entry to the matcher twice; the pending first edge is not
visible to the existence query (`autoflush=False`, no flush), so the run
commits two MatchEdge rows for the same unordered pair. -/
theorem duplicate_edges_within_run_cex :
    ((processScraperResults dbFix [rawFixA, rawFixA, rawFixB] "q" "s1" 7 none).2.product_matches.filter
      (fun m => (m.product_a_id == 1 && m.product_b_id == 2) ||
                (m.product_a_id == 2 && m.product_b_id == 1))).length = 2 := by
  with_unfolding_all decide

/-! ## Claim theorems: the similarity formula (C3) -/

theorem priceBoost_eq (pa pb : ℚ) :
    (if pa ≠ 0 ∧ pb ≠ 0 then
       (if 0 < max pa pb then
          (if 7/10 < 1 - |pa - pb| / max pa pb then (1:ℚ)/10 else 0)
        else 0)
     else 0) =
    (if pa ≠ 0 ∧ pb ≠ 0 ∧ 0 < max pa pb ∧ 7/10 < min pa pb / max pa pb
     then (1:ℚ)/10 else 0) := by
  by_cases h1 : pa ≠ 0 ∧ pb ≠ 0
  · rw [if_pos h1]
    by_cases h2 : 0 < max pa pb
    · rw [if_pos h2]
      have habs : |pa - pb| = max pa pb - min pa pb := by
        rw [abs_sub_comm]; exact (max_sub_min_eq_abs pa pb).symm
      have hmx : max pa pb ≠ 0 := ne_of_gt h2
      have heq : 1 - (max pa pb - min pa pb) / max pa pb = min pa pb / max pa pb := by
        field_simp
      rw [habs, heq]
      by_cases h3 : 7/10 < min pa pb / max pa pb
      · rw [if_pos h3, if_pos ⟨h1.1, h1.2, h2, h3⟩]
      · rw [if_neg h3, if_neg (by rintro ⟨_, _, _, h⟩; exact h3 h)]
    · rw [if_neg h2, if_neg (by rintro ⟨_, _, h, _⟩; exact h2 h)]
  · rw [if_neg h1, if_neg (by rintro ⟨hpa, hpb, _, _⟩; exact h1 ⟨hpa, hpb⟩)]

theorem sequenceRatio_nonneg (sa sb : String) : 0 ≤ sequenceRatio sa sb := by
  unfold sequenceRatio
  by_cases h : sa.data.length + sb.data.length = 0
  · rw [if_pos h]; norm_num
  · rw [if_neg h]
    apply div_nonneg
    · positivity
    · positivity

theorem brandBoost_nonneg (a b : Product) : 0 ≤ brandBoost a b := by
  unfold brandBoost
  split <;> norm_num

theorem codePriceBoost_nonneg (a b : Product) : 0 ≤ codePriceBoost a b := by
  unfold codePriceBoost
  split <;> norm_num

/-- Claim C3 (amended): for a cross-platform pair with no visible edge,
the composite similarity is the SequenceMatcher ratio of the normalized
names, plus 0.3 when both brands are non-empty and equal
case-insensitively, plus 0.1 when both prices are non-zero, the larger
one is positive, and min/max > 0.7 (the source guards the boost with
`max > 0`, so two negative prices get no boost), clamped to [0, 1];
empty-vs-empty names have ratio 1.0; an edge is inserted iff the
composite is ≥ 0.7, typed `exact` iff the composite is ≥ 0.9. -/
theorem similarity_formula (a b : Product) (visible pending : List ProductMatch)
    (hplat : a.platform_id ≠ b.platform_id)
    (hex : existsMatchRow visible a.id b.id = false) :
    calculateSimilarity a b =
      min (sequenceRatio a.normalized_name b.normalized_name + brandBoost a b + codePriceBoost a b) 1 ∧
    0 ≤ calculateSimilarity a b ∧ calculateSimilarity a b ≤ 1 ∧
    sequenceRatio "" "" = 1 ∧
    (calculateSimilarity a b < 7/10 → processPair visible pending a b = pending) ∧
    (7/10 ≤ calculateSimilarity a b →
      processPair visible pending a b = pending ++ [mkEdge a b (calculateSimilarity a b)] ∧
      (mkEdge a b (calculateSimilarity a b)).match_type =
        (if 9/10 ≤ calculateSimilarity a b then "exact" else "similar")) := by
  have hform : calculateSimilarity a b =
      min (sequenceRatio a.normalized_name b.normalized_name + brandBoost a b + codePriceBoost a b) 1 := by
    simp only [calculateSimilarity, brandBoost, codePriceBoost]
    rw [priceBoost_eq]
  refine ⟨hform, ?_, ?_, ?_, ?_, ?_⟩
  · rw [hform]
    have := sequenceRatio_nonneg a.normalized_name b.normalized_name
    have := brandBoost_nonneg a b
    have := codePriceBoost_nonneg a b
    have h1 : (0:ℚ) ≤ 1 := by norm_num
    exact le_min (by linarith) h1
  · rw [hform]; exact min_le_right _ _
  · with_unfolding_all decide
  · intro h
    unfold processPair
    rw [if_neg hplat, if_neg (not_le.mpr h)]
  · intro h
    refine ⟨processPair_insert visible pending a b hplat h hex, ?_⟩
    unfold mkEdge
    by_cases h9 : calculateSimilarity a b < 9/10
    · rw [if_pos h9, if_neg (not_le.mpr h9)]
    · rw [if_neg h9, if_pos (not_lt.mp h9)]

theorem similarity_formula_witness :
    prodFixA.platform_id ≠ prodFixB.platform_id ∧
    existsMatchRow [] prodFixA.id prodFixB.id = false ∧
    processPair [] [] prodFixA prodFixB =
      [mkEdge prodFixA prodFixB (calculateSimilarity prodFixA prodFixB)] :=
  ⟨by with_unfolding_all decide, by with_unfolding_all decide, by
    have h := (similarity_formula prodFixA prodFixB [] [] (by with_unfolding_all decide) (by with_unfolding_all decide)).2.2.2.2.2
    have hsim : 7/10 ≤ calculateSimilarity prodFixA prodFixB := by with_unfolding_all decide
    simpa using (h hsim).1⟩

/-- Two cross-platform entries with unrelated names, no brands, and both
prices equal to -5 (a negative raw price flows through `_extract_pricing`
unclamped): the spec formula grants the 0.1 price boost because
min/max = 1 > 0.7, but the source computes no boost because its guard
`max_price > 0` fails — so the claimed formula mis-states the code. -/
def prodNegA : Product :=
  { id := 3, name := "abc", normalized_name := "abc", platform_id := 1,
    platform_product_id := "N1", current_price := -5 }

def prodNegB : Product :=
  { id := 4, name := "xyz", normalized_name := "xyz", platform_id := 2,
    platform_product_id := "N2", current_price := -5 }

theorem similarity_price_boost_cex :
    calculateSimilarity prodNegA prodNegB = 0 ∧
    specCompositeSimilarity prodNegA prodNegB = 1/10 ∧
    calculateSimilarity prodNegA prodNegB ≠ specCompositeSimilarity prodNegA prodNegB := by
  refine ⟨?_, ?_, ?_⟩ <;> with_unfolding_all decide

/-! ## Claim theorems: pricing extraction (C7, C8) -/

/-- Claim C7 (amended): the discount is 0 whenever original ≤ current or
original ≤ 0, otherwise `(original - current)/original * 100`; it is
always ≥ 0, and it is ≤ 100 whenever the current price is non-negative
(a negative current price — which `_extract_pricing` does not clamp —
pushes it above 100). -/
theorem discount_formula (raw : RawProduct) :
    ((extractPricing raw).2.1 ≤ (extractPricing raw).1 ∨ (extractPricing raw).2.1 ≤ 0 →
      (extractPricing raw).2.2 = 0) ∧
    ((extractPricing raw).1 < (extractPricing raw).2.1 → 0 < (extractPricing raw).2.1 →
      (extractPricing raw).2.2 =
        ((extractPricing raw).2.1 - (extractPricing raw).1) / (extractPricing raw).2.1 * 100) ∧
    0 ≤ (extractPricing raw).2.2 ∧
    (0 ≤ (extractPricing raw).1 → (extractPricing raw).2.2 ≤ 100) := by
  simp only [extractPricing]
  set c := raw.price.getD 0 with hc
  set o := raw.original_price.getD c with ho
  refine ⟨?_, ?_, ?_, ?_⟩
  · intro h
    rw [if_neg]
    rintro ⟨h1, h2⟩
    rcases h with h | h <;> linarith
  · intro h1 h2
    rw [if_pos ⟨h1, h2⟩]
  · split
    · rename_i h
      have h1 := h.1
      have h2 := h.2
      have : 0 ≤ (o - c) / o := div_nonneg (by linarith) (le_of_lt h2)
      linarith
    · exact le_refl 0
  · intro hc0
    split
    · rename_i h
      have h2 := h.2
      have hle : (o - c) / o ≤ 1 := (div_le_one h2).mpr (by linarith)
      linarith
    · norm_num

def rawDisc : RawProduct := { price := some 50, original_price := some 100 }

theorem discount_formula_witness :
    0 ≤ (extractPricing rawDisc).1 ∧ (extractPricing rawDisc).2.2 ≤ 100 ∧
    (extractPricing rawDisc).2.2 = 50 :=
  ⟨by with_unfolding_all decide,
   (discount_formula rawDisc).2.2.2 (by with_unfolding_all decide),
   by with_unfolding_all decide⟩

/-- Claim C7, counterexample: a record with raw price -5 and original
price 10 is processed to a discount of 150, outside [0, 100]. -/
def rawNegDisc : RawProduct := { price := some (-5), original_price := some 10 }

theorem discount_range_cex :
    (extractPricing rawNegDisc).2.2 = 150 ∧ ¬ ((extractPricing rawNegDisc).2.2 ≤ 100) := by
  refine ⟨?_, ?_⟩ <;> with_unfolding_all decide

/-- Claim C8 (amended): the current price is the raw price with a missing
key defaulting to 0.0, and the original price defaults to the current
price when absent — but the value is *not* coerced non-negative: a
negative raw price flows through unchanged (and an unparsable price
would raise inside `float(...)`, skipping the record, rather than
yielding 0.0). -/
theorem pricing_extraction (raw : RawProduct) :
    (extractPricing raw).1 = raw.price.getD 0 ∧
    (extractPricing raw).2.1 = raw.original_price.getD (raw.price.getD 0) ∧
    (raw.price = none → (extractPricing raw).1 = 0) ∧
    ∃ r : RawProduct, (extractPricing r).1 < 0 :=
  ⟨rfl, rfl, fun h => by simp [extractPricing, h],
   ⟨{ price := some (-3) }, by with_unfolding_all decide⟩⟩

theorem pricing_extraction_witness :
    ({ } : RawProduct).price = none ∧ (extractPricing { }).1 = 0 :=
  ⟨rfl, (pricing_extraction { }).2.2.1 rfl⟩

/-- Claim C8, counterexample: raw price -3 is not coerced to a
non-negative float — the extracted current price is -3, and the original
price defaults to it. -/
def rawNeg3 : RawProduct := { price := some (-3) }

theorem pricing_negative_cex :
    (extractPricing rawNeg3).1 = -3 ∧ (extractPricing rawNeg3).1 < 0 ∧
    (extractPricing rawNeg3).2.1 = -3 := by
  refine ⟨?_, ?_, ?_⟩ <;> with_unfolding_all decide

/-! ## Helper lemmas about the upsert engine -/

theorem findProduct_key :
    ∀ (ps : List Product) (pid : Nat) (s : String) (i : Nat) (q : Product),
      findProduct ps pid s = some (i, q) →
      q.platform_id = pid ∧ q.platform_product_id = s := by
  intro ps
  induction ps with
  | nil => intro pid s i q h; exact absurd h (by simp [findProduct])
  | cons p ps' ih =>
    intro pid s i q h
    unfold findProduct at h
    by_cases hc : p.platform_id = pid ∧ p.platform_product_id = s
    · rw [if_pos hc] at h
      injection h with h'
      injection h' with _ hq
      subst hq
      exact hc
    · rw [if_neg hc] at h
      cases hf : findProduct ps' pid s with
      | none => rw [hf] at h; exact absurd h (by simp)
      | some iq =>
        obtain ⟨i', q2⟩ := iq
        rw [hf] at h
        injection h with h'
        injection h' with _ hq
        subst hq
        exact ih pid s i' q2 hf

theorem findProduct_set_same :
    ∀ (ps : List Product) (pid : Nat) (s : String) (i : Nat) (q q' : Product),
      findProduct ps pid s = some (i, q) →
      q'.platform_id = pid → q'.platform_product_id = s →
      findProduct (ps.set i q') pid s = some (i, q') := by
  intro ps
  induction ps with
  | nil => intro pid s i q q' h; exact absurd h (by simp [findProduct])
  | cons p ps' ih =>
    intro pid s i q q' h h1 h2
    unfold findProduct at h
    by_cases hc : p.platform_id = pid ∧ p.platform_product_id = s
    · rw [if_pos hc] at h
      injection h with h'
      injection h' with hi _
      subst hi
      simp only [List.set]
      unfold findProduct
      rw [if_pos ⟨h1, h2⟩]
    · rw [if_neg hc] at h
      cases hf : findProduct ps' pid s with
      | none => rw [hf] at h; exact absurd h (by simp)
      | some iq =>
        obtain ⟨i', q2⟩ := iq
        rw [hf] at h
        injection h with h'
        injection h' with hi hq
        subst hi
        simp only [List.set]
        unfold findProduct
        rw [if_neg hc, ih pid s i' q2 q' hf h1 h2]

theorem findProduct_append :
    ∀ (ps : List Product) (pid : Nat) (s : String) (q : Product),
      findProduct ps pid s = none →
      q.platform_id = pid → q.platform_product_id = s →
      findProduct (ps ++ [q]) pid s = some (ps.length, q) := by
  intro ps
  induction ps with
  | nil =>
    intro pid s q _ h1 h2
    simp only [List.nil_append, List.length_nil]
    unfold findProduct
    rw [if_pos ⟨h1, h2⟩]
  | cons p ps' ih =>
    intro pid s q h h1 h2
    unfold findProduct at h
    by_cases hc : p.platform_id = pid ∧ p.platform_product_id = s
    · rw [if_pos hc] at h; exact absurd h (by simp)
    · rw [if_neg hc] at h
      cases hf : findProduct ps' pid s with
      | some iq => rw [hf] at h; exact absurd h (by simp)
      | none =>
        simp only [List.cons_append, List.length_cons]
        unfold findProduct
        rw [if_neg hc, ih pid s q hf h1 h2]

/-- Reduction of `_process_single_product` on the update branch. -/
theorem processSingleProduct_update (db : DB) (cache : List (String × Platform))
    (cats : List (String × Category)) (sid : String) (now : Nat) (raw : RawProduct)
    (pl : Platform) (i : Nat) (ex : Product)
    (hg : ¬ (cleanText raw.name = "" ∨ (cleanText raw.name).length < 3))
    (hpl : cache.lookup raw.platform.toLower = some pl)
    (hf : findProduct db.products pl.id raw.product_id = some (i, ex)) :
    processSingleProduct db cache cats sid now raw =
      (some (i, updatedEntry ex (cleanText raw.name) (normalizeName (cleanText raw.name))
          (extractPricing raw) (raw.availability.getD true) raw.url raw.image_url now),
       { db with
         products := db.products.set i (updatedEntry ex (cleanText raw.name)
           (normalizeName (cleanText raw.name)) (extractPricing raw)
           (raw.availability.getD true) raw.url raw.image_url now),
         history := db.history ++ [mkHistory ex.id pl.id (extractPricing raw)
           (raw.availability.getD true) now sid] }) := by
  unfold processSingleProduct
  rw [if_neg hg, hpl]
  dsimp only
  rw [hf]
  rfl

/-- Reduction of `_process_single_product` on the create branch. -/
theorem processSingleProduct_create (db : DB) (cache : List (String × Platform))
    (cats : List (String × Category)) (sid : String) (now : Nat) (raw : RawProduct)
    (pl : Platform)
    (hg : ¬ (cleanText raw.name = "" ∨ (cleanText raw.name).length < 3))
    (hpl : cache.lookup raw.platform.toLower = some pl)
    (hf : findProduct db.products pl.id raw.product_id = none) :
    processSingleProduct db cache cats sid now raw =
      (some (db.products.length,
        newEntry db.nextProductId (cleanText raw.name) (normalizeName (cleanText raw.name))
          raw (extractBrandModel (cleanText raw.name)) pl.id
          (categorizeProduct cats (cleanText raw.name)) (extractPricing raw)
          (calculateQualityScore raw) now),
       { db with
         products := db.products ++ [newEntry db.nextProductId (cleanText raw.name)
           (normalizeName (cleanText raw.name)) raw (extractBrandModel (cleanText raw.name))
           pl.id (categorizeProduct cats (cleanText raw.name)) (extractPricing raw)
           (calculateQualityScore raw) now],
         history := db.history ++ [mkHistory db.nextProductId pl.id (extractPricing raw)
           (raw.availability.getD true) now sid],
         nextProductId := db.nextProductId + 1 }) := by
  unfold processSingleProduct
  rw [if_neg hg, hpl]
  dsimp only
  rw [hf]
  rfl

/-! ## Claim theorems: the upsert engine (C1, C6) -/

/-- Claim C1: two valid records with the same (platform, product_id)
processed in sequence touch the same catalog row (same position and
same internal id; the second observation creates no new entry), the
second observation increments the scrape count by exactly one (a
missing/null prior count counting as zero), and each observation
appends exactly one PriceHistoryRecord tagged with the current
ingestion-session id. -/
theorem upsert_second_observation
    (db : DB) (cache : List (String × Platform)) (cats : List (String × Category))
    (sid : String) (now1 now2 : Nat) (r1 r2 : RawProduct) (pl : Platform)
    (hpl1 : cache.lookup r1.platform.toLower = some pl)
    (hn1 : 3 ≤ (cleanText r1.name).length)
    (hn2 : 3 ≤ (cleanText r2.name).length)
    (hp : r2.platform = r1.platform) (hid : r2.product_id = r1.product_id) :
    ∃ i p1 p2 db1 db2 h1 h2,
      processSingleProduct db cache cats sid now1 r1 = (some (i, p1), db1) ∧
      processSingleProduct db1 cache cats sid now2 r2 = (some (i, p2), db2) ∧
      p2.id = p1.id ∧
      db2.products.length = db1.products.length ∧
      p2.scrape_count = some (p1.scrape_count.getD 0 + 1) ∧
      db1.history = db.history ++ [h1] ∧ h1.scrape_session_id = sid ∧
      db2.history = db1.history ++ [h2] ∧ h2.scrape_session_id = sid := by
  have hempty : (("" : String)).length = 0 := rfl
  have hg1 : ¬ (cleanText r1.name = "" ∨ (cleanText r1.name).length < 3) := by
    rintro (h | h)
    · rw [h] at hn1; omega
    · omega
  have hg2 : ¬ (cleanText r2.name = "" ∨ (cleanText r2.name).length < 3) := by
    rintro (h | h)
    · rw [h] at hn2; omega
    · omega
  have hpl2 : cache.lookup r2.platform.toLower = some pl := by rw [hp]; exact hpl1
  cases hf : findProduct db.products pl.id r1.product_id with
  | some iq =>
    obtain ⟨i, ex⟩ := iq
    have hkey := findProduct_key db.products pl.id r1.product_id i ex hf
    have e1 := processSingleProduct_update db cache cats sid now1 r1 pl i ex hg1 hpl1 hf
    have hf2 : findProduct
        (db.products.set i (updatedEntry ex (cleanText r1.name)
          (normalizeName (cleanText r1.name)) (extractPricing r1)
          (r1.availability.getD true) r1.url r1.image_url now1)) pl.id r2.product_id =
        some (i, updatedEntry ex (cleanText r1.name)
          (normalizeName (cleanText r1.name)) (extractPricing r1)
          (r1.availability.getD true) r1.url r1.image_url now1) := by
      rw [hid]
      exact findProduct_set_same db.products pl.id r1.product_id i ex _ hf hkey.1 hkey.2
    have e2 := processSingleProduct_update
      { db with
        products := db.products.set i (updatedEntry ex (cleanText r1.name)
          (normalizeName (cleanText r1.name)) (extractPricing r1)
          (r1.availability.getD true) r1.url r1.image_url now1),
        history := db.history ++ [mkHistory ex.id pl.id (extractPricing r1)
          (r1.availability.getD true) now1 sid] }
      cache cats sid now2 r2 pl i _ hg2 hpl2 hf2
    refine ⟨i, _, _, _, _, _, _, e1, e2, rfl, ?_, rfl, rfl, rfl, rfl, rfl⟩
    simp [List.length_set]
  | none =>
    have e1 := processSingleProduct_create db cache cats sid now1 r1 pl hg1 hpl1 hf
    have hf2 : findProduct
        (db.products ++ [newEntry db.nextProductId (cleanText r1.name)
          (normalizeName (cleanText r1.name)) r1 (extractBrandModel (cleanText r1.name))
          pl.id (categorizeProduct cats (cleanText r1.name)) (extractPricing r1)
          (calculateQualityScore r1) now1]) pl.id r2.product_id =
        some (db.products.length, newEntry db.nextProductId (cleanText r1.name)
          (normalizeName (cleanText r1.name)) r1 (extractBrandModel (cleanText r1.name))
          pl.id (categorizeProduct cats (cleanText r1.name)) (extractPricing r1)
          (calculateQualityScore r1) now1) := by
      rw [hid]
      exact findProduct_append db.products pl.id r1.product_id _ hf rfl rfl
    have e2 := processSingleProduct_update
      { db with
        products := db.products ++ [newEntry db.nextProductId (cleanText r1.name)
          (normalizeName (cleanText r1.name)) r1 (extractBrandModel (cleanText r1.name))
          pl.id (categorizeProduct cats (cleanText r1.name)) (extractPricing r1)
          (calculateQualityScore r1) now1],
        history := db.history ++ [mkHistory db.nextProductId pl.id (extractPricing r1)
          (r1.availability.getD true) now1 sid],
        nextProductId := db.nextProductId + 1 }
      cache cats sid now2 r2 pl db.products.length _ hg2 hpl2 hf2
    refine ⟨db.products.length, _, _, _, _, _, _, e1, e2, rfl, ?_, rfl, rfl, rfl, rfl, rfl⟩
    simp [List.length_set]

def cacheFix : List (String × Platform) := buildPlatformCache dbFix.platforms

theorem upsert_second_observation_witness :
    cacheFix.lookup rawFixA.platform.toLower = some { id := 1, name := "pchome" } ∧
    3 ≤ (cleanText rawFixA.name).length ∧
    rawFixA.platform = rawFixA.platform ∧ rawFixA.product_id = rawFixA.product_id ∧
    (∃ i p1 p2 db1 db2 h1 h2,
      processSingleProduct dbFix cacheFix [] "s1" 5 rawFixA = (some (i, p1), db1) ∧
      processSingleProduct db1 cacheFix [] "s1" 6 rawFixA = (some (i, p2), db2) ∧
      p2.id = p1.id ∧
      db2.products.length = db1.products.length ∧
      p2.scrape_count = some (p1.scrape_count.getD 0 + 1) ∧
      db1.history = dbFix.history ++ [h1] ∧ h1.scrape_session_id = "s1" ∧
      db2.history = db1.history ++ [h2] ∧ h2.scrape_session_id = "s1") :=
  ⟨by with_unfolding_all decide, by with_unfolding_all decide, rfl, rfl,
   upsert_second_observation dbFix cacheFix [] "s1" 5 6 rawFixA rawFixA
     { id := 1, name := "pchome" } (by with_unfolding_all decide) (by with_unfolding_all decide) (by with_unfolding_all decide) rfl rfl⟩

/-- The pre-existing catalog row used by the update-path fixtures; its
stored quality score is 1/2. -/
def prodExist : Product :=
  { id := 1, name := "old", normalized_name := "old", platform_id := 1,
    platform_product_id := "A1", data_quality_score := 1/2, scrape_count := some 1,
    created_at := 3 }

def dbUpd : DB := { platforms := dbFix.platforms, products := [prodExist] }

def rawUpd : RawProduct :=
  { name := "abcdef", platform := "pchome", product_id := "A1", price := some 100 }

/-- Claim C6 (amended): a later observation of an existing
(platform, platform-product-id) pair updates the row in place,
refreshing name, normalized name, prices, discount, availability, url,
image url, last-scraped and scrape-count, while the internal id,
created-at — and also the data-quality score, which the update branch
never assigns — keep their previous values. -/
theorem update_refreshes_fields
    (db : DB) (cache : List (String × Platform)) (cats : List (String × Category))
    (sid : String) (now : Nat) (raw : RawProduct) (pl : Platform) (i : Nat) (ex : Product)
    (hn : 3 ≤ (cleanText raw.name).length)
    (hpl : cache.lookup raw.platform.toLower = some pl)
    (hf : findProduct db.products pl.id raw.product_id = some (i, ex)) :
    ∃ p' db', processSingleProduct db cache cats sid now raw = (some (i, p'), db') ∧
      p'.name = cleanText raw.name ∧
      p'.normalized_name = normalizeName (cleanText raw.name) ∧
      p'.current_price = (extractPricing raw).1 ∧
      p'.original_price = (extractPricing raw).2.1 ∧
      p'.discount_percentage = (extractPricing raw).2.2 ∧
      p'.is_available = raw.availability.getD true ∧
      p'.url = raw.url ∧ p'.image_url = raw.image_url ∧
      p'.last_scraped = now ∧
      p'.scrape_count = some (ex.scrape_count.getD 0 + 1) ∧
      p'.id = ex.id ∧ p'.created_at = ex.created_at ∧
      p'.data_quality_score = ex.data_quality_score ∧
      db'.products = db.products.set i p' ∧
      db'.products.length = db.products.length := by
  have hempty : (("" : String)).length = 0 := rfl
  have hg : ¬ (cleanText raw.name = "" ∨ (cleanText raw.name).length < 3) := by
    rintro (h | h)
    · rw [h] at hn; omega
    · omega
  refine ⟨_, _, processSingleProduct_update db cache cats sid now raw pl i ex hg hpl hf,
    rfl, rfl, rfl, rfl, rfl, rfl, rfl, rfl, rfl, rfl, rfl, rfl, rfl, rfl, ?_⟩
  simp [List.length_set]

theorem update_refreshes_fields_witness :
    3 ≤ (cleanText rawUpd.name).length ∧
    cacheFix.lookup rawUpd.platform.toLower = some { id := 1, name := "pchome" } ∧
    findProduct dbUpd.products (Platform.mk 1 "pchome").id rawUpd.product_id =
      some (0, prodExist) ∧
    (∃ p' db', processSingleProduct dbUpd cacheFix [] "s1" 9 rawUpd = (some (0, p'), db') ∧
      p'.name = cleanText rawUpd.name ∧
      p'.normalized_name = normalizeName (cleanText rawUpd.name) ∧
      p'.current_price = (extractPricing rawUpd).1 ∧
      p'.original_price = (extractPricing rawUpd).2.1 ∧
      p'.discount_percentage = (extractPricing rawUpd).2.2 ∧
      p'.is_available = rawUpd.availability.getD true ∧
      p'.url = rawUpd.url ∧ p'.image_url = rawUpd.image_url ∧
      p'.last_scraped = 9 ∧
      p'.scrape_count = some (prodExist.scrape_count.getD 0 + 1) ∧
      p'.id = prodExist.id ∧ p'.created_at = prodExist.created_at ∧
      p'.data_quality_score = prodExist.data_quality_score ∧
      db'.products = dbUpd.products.set 0 p' ∧
      db'.products.length = dbUpd.products.length) :=
  ⟨by with_unfolding_all decide, by with_unfolding_all decide, by with_unfolding_all decide,
   update_refreshes_fields dbUpd cacheFix [] "s1" 9 rawUpd { id := 1, name := "pchome" }
     0 prodExist (by with_unfolding_all decide) (by with_unfolding_all decide) (by with_unfolding_all decide)⟩

/-- Claim C6, counterexample to the original claim: the update branch of
`_process_single_product` does not assign `data_quality_score`.  Here
the stored score stays 1/2 although recomputing the quality score of the
new observation gives 0.33 — so "quality score … refresh[es]" is false. -/
theorem update_quality_score_cex :
    (processSingleProduct dbUpd cacheFix [] "s1" 9 rawUpd).1.map
      (fun x => x.2.data_quality_score) = some (1/2) ∧
    calculateQualityScore rawUpd = 33/100 ∧ ((1:ℚ)/2 ≠ 33/100) := by
  refine ⟨?_, ?_, ?_⟩ <;> with_unfolding_all decide

/-! ## Claim theorems: duplicate-in-batch validation (C5) -/

theorem bulkDupScan_ok_nodup :
    ∀ (ps : List PSInput) (seen : List (String × String)),
      bulkDupScan ps seen = .ok () →
      (ps.map (fun p => (p.platform, p.product_id))).Nodup ∧
      ∀ k ∈ ps.map (fun p => (p.platform, p.product_id)), k ∉ seen := by
  intro ps
  induction ps with
  | nil => intro seen _; exact ⟨List.nodup_nil, by simp⟩
  | cons p ps' ih =>
    intro seen h
    unfold bulkDupScan at h
    by_cases hc : seen.contains (p.platform, p.product_id) = true
    · rw [if_pos hc] at h; exact absurd h (by simp)
    · rw [if_neg hc] at h
      obtain ⟨hnodup, hnotin⟩ := ih ((p.platform, p.product_id) :: seen) h
      refine ⟨?_, ?_⟩
      · rw [List.map_cons, List.nodup_cons]
        refine ⟨fun hmem => ?_, hnodup⟩
        exact hnotin _ hmem (List.mem_cons_self _ _)
      · intro k hk
        rw [List.map_cons, List.mem_cons] at hk
        rcases hk with rfl | hk
        · intro hmem
          exact hc (List.elem_eq_true_of_mem hmem)
        · intro hmem
          exact hnotin k hk (List.mem_cons_of_mem _ hmem)

/-- Claim C5 (amended): a batch containing two records with the same
(platform, product id) is rejected as a whole by
`BulkProductSchema.validate_product_list` (an error is raised, no record
of the batch is accepted), while `DataLoader._validate_products` runs
`ProductSchema` on each record independently — with no duplicate check —
so both occurrences are accepted there; no first-seen-wins dropping with
a `DuplicateInBatch` reason exists on either path. -/
theorem duplicate_in_batch :
    (∀ ps, hasDupKey ps = true → ∃ m, bulkValidateProductList ps = .error m) ∧
    (∀ ps i, (validateProducts ps i).1 =
      ps.filterMap (fun p => (schemaValidate p).toOption)) := by
  constructor
  · intro ps hdup
    unfold bulkValidateProductList
    by_cases hnil : ps = []
    · rw [if_pos hnil]; exact ⟨_, rfl⟩
    · rw [if_neg hnil]
      cases hscan : bulkDupScan ps [] with
      | ok u =>
        cases u
        have hnodup := (bulkDupScan_ok_nodup ps [] hscan).1
        unfold hasDupKey at hdup
        simp only [decide_eq_true_eq] at hdup
        exact absurd hnodup hdup
      | error e => exact ⟨e, rfl⟩
  · intro ps
    induction ps with
    | nil => intro i; rfl
    | cons p ps' ih =>
      intro i
      unfold validateProducts
      cases h : schemaValidate p with
      | ok v => simp [List.filterMap_cons, h, Except.toOption, ih (i + 1)]
      | error e => simp [List.filterMap_cons, h, Except.toOption, ih (i + 1)]

def psDup1 : PSInput :=
  { platform := "pchome", product_id := "A1", name := "iPhone 15", price := 100,
    url := "https://x.tw/a" }

def psDup2 : PSInput :=
  { platform := "pchome", product_id := "A1", name := "iPhone 15", price := 200,
    url := "https://x.tw/a" }

theorem duplicate_in_batch_witness :
    hasDupKey [psDup1, psDup2] = true ∧
    (∃ m, bulkValidateProductList [psDup1, psDup2] = .error m) :=
  ⟨by with_unfolding_all decide, duplicate_in_batch.1 [psDup1, psDup2] (by with_unfolding_all decide)⟩

/-- Claim C5, counterexample to the original claim: the same
(platform, product_id) twice in one batch with different prices.
`validate_product_list` raises on the whole batch (so the first
occurrence is *not* accepted and processing does *not* continue), and
`_validate_products` accepts *both* occurrences (so the later one is
*not* dropped). -/
theorem duplicate_batch_cex :
    bulkValidateProductList [psDup1, psDup2] =
      .error "Duplicate product found: pchome:A1" ∧
    (validateProducts [psDup1, psDup2] 0).1.length = 2 := by
  refine ⟨?_, ?_⟩
  · with_unfolding_all rfl
  · with_unfolding_all decide

/-! ## Claim theorems: orchestrator failure handling (C9) -/

/-- Claim C9 (amended): an unhandled exception after session creation
makes the orchestrator roll the transaction back and re-raise: the
exception is surfaced to the caller and the committed store is exactly
the pre-run store — the flushed-but-uncommitted session row is
discarded, so no session is left `running`, but none is marked `failed`
either (the record simply does not persist).  A successful run commits
exactly one new session, finalized with status `completed`. -/
theorem orchestrator_failure :
    (∀ (db : DB) raws q sid now m,
        processScraperResults db raws q sid now (some m) = (.error m, db)) ∧
    (∀ (db : DB) raws q sid now, ∃ sess,
        (processScraperResults db raws q sid now none).2.sessions =
          db.sessions ++ [sess] ∧
        sess.status = "completed" ∧ sess.session_id = sid) := by
  constructor
  · intro db raws q sid now m; rfl
  · intro db raws q sid now
    exact ⟨_, rfl, rfl, rfl⟩

/-- Claim C9, counterexample to the original claim: a run over an empty
store that crashes after session creation surfaces the error, and the
committed store afterwards contains *no* session row at all — in
particular none with status `failed`. -/
theorem orchestrator_failure_cex :
    processScraperResults { } [rawFixA] "q" "s9" 0 (some "boom") = (.error "boom", { }) ∧
    ({ } : DB).sessions = [] :=
  ⟨rfl, rfl⟩
